import Mathlib

/-!
Verification of the analytics query compiler and sampling-aware execution
engine (files uar.py, uar_types.py, ga-reporting.py of the repository).

The Python sources are shallowly embedded: value objects become structures,
enums become inductive types with explicit declaration-order member lists,
wire dictionaries become ordered association lists of a JSON-like value
type, and the date arithmetic of the standard datetime.date type is
reproduced through the proleptic Gregorian ordinal.
-/

namespace UAR

/-! ## Dates (embedding of datetime.date as used by uar.py / ga-reporting.py) -/

/-- A calendar date, as datetime.date. -/
structure Date where
  year : Nat
  month : Nat
  day : Nat
deriving DecidableEq, Repr

/-- Gregorian leap-year test, as datetime. -/
def isLeapYear (y : Nat) : Bool :=
  y % 4 = 0 && (y % 100 != 0 || y % 400 = 0)

/-- Number of days of a month, as datetime. -/
def daysInMonth (y m : Nat) : Nat :=
  match m with
  | 1 => 31
  | 2 => if isLeapYear y then 29 else 28
  | 3 => 31
  | 4 => 30
  | 5 => 31
  | 6 => 30
  | 7 => 31
  | 8 => 31
  | 9 => 30
  | 10 => 31
  | 11 => 30
  | 12 => 31
  | _ => 0

/-- Days in all years strictly before year y (proleptic Gregorian). -/
def daysBeforeYear (y : Nat) : Nat :=
  let p := y - 1
  365 * p + p / 4 - p / 100 + p / 400

/-- Days in all months of year y strictly before month m. -/
def daysBeforeMonth (y m : Nat) : Nat :=
  ((List.range (m - 1)).map (fun i => daysInMonth y (i + 1))).sum

/-- The proleptic Gregorian ordinal of a date, as datetime.date.toordinal:
day 1 is January 1 of year 1. -/
def Date.toOrdinal (d : Date) : Nat :=
  daysBeforeYear d.year + daysBeforeMonth d.year d.month + d.day

/-- Left-pad the decimal representation of n to two digits. -/
def pad2 (n : Nat) : String :=
  if n < 10 then "0" ++ toString n else toString n

/-- Left-pad the decimal representation of n to four digits. -/
def pad4 (n : Nat) : String :=
  if n < 10 then "000" ++ toString n
  else if n < 100 then "00" ++ toString n
  else if n < 1000 then "0" ++ toString n
  else toString n

/-- ISO-8601 rendering of a date, as datetime.date.isoformat. -/
def Date.isoformat (d : Date) : String :=
  pad4 d.year ++ "-" ++ pad2 d.month ++ "-" ++ pad2 d.day

/-! ## DateRange (uar.py, class DateRange) -/

/-- The DateRange value object of uar.py: an inclusive span of dates. -/
structure DateRange where
  start_date : Date
  end_date : Date
deriving DecidableEq, Repr

/-- Modelled from the spec: the repository tests exercise a length-in-days
operation on DateRange (len of the inclusive span) whose implementation is
absent from src/uar.py. The spec states length is the number of days in
the inclusive span. -/
def DateRange.length (r : DateRange) : Nat :=
  r.end_date.toOrdinal - r.start_date.toOrdinal + 1

/-- The day sequence of a DateRange, as ordinals: start, start+1, ..., end. -/
def DateRange.days (r : DateRange) : List Nat :=
  (List.range r.length).map (fun k => r.start_date.toOrdinal + k)

/-- Modelled from the spec: the membership test on DateRange (a date is a
member iff it lies between start and end, inclusively) whose implementation
is absent from src/uar.py. -/
def DateRange.containsDate (r : DateRange) (d : Date) : Bool :=
  r.start_date.toOrdinal ≤ d.toOrdinal && d.toOrdinal ≤ r.end_date.toOrdinal

/-- Modelled from the spec: indexed access into the day sequence of a
DateRange, absent from src/uar.py. Index 0 is the start date, negative
indices count from the end, out of range is an error (here: none).
Returns the ordinal of the selected day. -/
def DateRange.getItem (r : DateRange) (i : Int) : Option Nat :=
  let n : Int := r.length
  let j : Int := if i < 0 then i + n else i
  if 0 ≤ j ∧ j < n then some (r.start_date.toOrdinal + j.toNat) else none

/-! ## Case conversion (uar.py, camel_to_snake_case / snake_to_camel_case)

Strings are modelled as lists of characters. The regular expression
([A-Z]) matches each ASCII uppercase character; the replacement prefixes
an underscore and lowercases it. The regexp _([a-z]) matches an
underscore followed by an ASCII lowercase character; the replacement drops
the underscore and uppercases the letter. re.sub scans left to right with
non-overlapping matches. -/

/-- ASCII uppercase test, as the regexp class [A-Z] (codes 65 to 90). -/
def isUpperAscii (c : Char) : Bool := 65 ≤ c.toNat && c.toNat ≤ 90

/-- ASCII lowercase test, as the regexp class [a-z] (codes 97 to 122). -/
def isLowerAscii (c : Char) : Bool := 97 ≤ c.toNat && c.toNat ≤ 122

/-- Lowercase an ASCII uppercase character (str.lower on a [A-Z] match). -/
def lowerChar (c : Char) : Char :=
  if isUpperAscii c then Char.ofNat (c.toNat + 32) else c

/-- Uppercase an ASCII lowercase character (str.upper on a [a-z] match). -/
def upperChar (c : Char) : Char :=
  if isLowerAscii c then Char.ofNat (c.toNat - 32) else c

/-- camel_to_snake_case of uar.py: insert an underscore before every
ASCII uppercase letter and lowercase it. -/
def camel_to_snake_case : List Char → List Char
  | [] => []
  | c :: cs =>
    if isUpperAscii c then '_' :: lowerChar c :: camel_to_snake_case cs
    else c :: camel_to_snake_case cs

/-- snake_to_camel_case of uar.py: replace every underscore followed by an
ASCII lowercase letter by the uppercased letter. An underscore not
followed by a lowercase letter is left in place and scanning resumes at
the next character, as re.sub does. -/
def snake_to_camel_case : List Char → List Char
  | [] => []
  | '_' :: c2 :: cs2 =>
    if isLowerAscii c2 then upperChar c2 :: snake_to_camel_case cs2
    else '_' :: snake_to_camel_case (c2 :: cs2)
  | c :: cs => c :: snake_to_camel_case cs

/-! ## chunk (uar.py) -/

/-- chunk of uar.py: split a list into consecutive groups of chunksize
elements, the last group possibly shorter. The Python implementation
pairs elements with an infinite counter repeating each index chunksize
times and groups by that counter; with chunksize equal to zero it never
produces an element (the call site always passes a positive size). -/
def chunkGo : Nat → List α → Nat → List (List α)
  | 0, _, _ => []
  | _ + 1, [], _ => []
  | _ + 1, _ :: _, 0 => []
  | fuel + 1, x :: xs, k + 1 =>
    ((x :: xs).take (k + 1)) :: chunkGo fuel ((x :: xs).drop (k + 1)) (k + 1)

/-- Entry point of the chunking recursion; the fuel (one step consumes at
least one element) is the input length. -/
def chunk (l : List α) (chunksize : Nat) : List (List α) :=
  chunkGo l.length l chunksize

/-! ## Wire values

Python dictionaries destined for the JSON wire format are modelled as
ordered association lists, preserving insertion order. The distinguished
notImplemented value embeds the NotImplemented sentinel that
Filter.to_request and Column.to_request return for unhandled kinds. -/

/-- A JSON-like wire value. -/
inductive JVal where
  | s (v : String)
  | b (v : Bool)
  | i (v : Int)
  | arr (elems : List JVal)
  | obj (fields : List (String × JVal))
  | notImplemented

/-- First value bound to a key in a wire dictionary. -/
def lookupKey (k : String) : List (String × JVal) → Option JVal
  | [] => none
  | (k2, v) :: rest => if k2 = k then some v else lookupKey k rest

/-- Python dictionary merge d1 | d2: keys of d1 in order, values overridden
by d2 where present, then the keys only in d2, in order. -/
def mergeDict (d1 d2 : List (String × JVal)) : List (String × JVal) :=
  (d1.map (fun kv =>
    match lookupKey kv.1 d2 with
    | some v => (kv.1, v)
    | none => kv)) ++ d2.filter (fun kv => (lookupKey kv.1 d1).isNone)

/-! ## Enumerations (uar_types.py) -/

/-- The wire-level representation of a filter operator (uar_types.py,
UAFilterLiteral). -/
structure UAFilterLiteral where
  op : String
  negated : Bool
deriving DecidableEq, Repr

/-- A pair of parallel representations of one operator (uar_types.py,
AliasedValue): the infix expression token and the wire literal. -/
structure AliasedValue where
  expr : String
  ua : UAFilterLiteral
deriving DecidableEq, Repr

/-- The members of the FilterOperator aliased enumeration. -/
inductive FilterOperator where
  | EQ
  | NEQ
  | IN
  | GT
  | GTE
deriving DecidableEq, Repr

/-- The AliasedValue carried by each FilterOperator member, exactly as
declared in uar_types.py. -/
def FilterOperator.value : FilterOperator → AliasedValue
  | .EQ => ⟨"==", ⟨"EXACT", false⟩⟩
  | .NEQ => ⟨"!=", ⟨"EXACT", true⟩⟩
  | .IN => ⟨"IN", ⟨"IN_LIST", false⟩⟩
  | .GT => ⟨">", ⟨"GREATER_THAN", false⟩⟩
  | .GTE => ⟨">=", ⟨"LESS_THAN", true⟩⟩

/-- FilterOperator members in declaration order (Python Enum iteration
order, which AliasedEnum.get relies on). -/
def FilterOperator.members : List FilterOperator :=
  [.EQ, .NEQ, .IN, .GT, .GTE]

/-- AliasedEnum.get with key type expr (uar_types.py): the first declared
member whose expression alias equals the token. none embeds the
StopIteration that next raises when no member matches. -/
def FilterOperator.getExpr (tok : String) : Option FilterOperator :=
  FilterOperator.members.find? (fun m => m.value.expr == tok)

/-- The distinct members of the SamplingLevel enumeration. In the source,
MEDIUM is declared with the same numeric value as DEFAULT, so Python makes
it an alias: the very same member object. -/
inductive SamplingLevel where
  | SMALL
  | DEFAULT
  | LARGE
deriving DecidableEq, Repr

/-- SamplingLevel.MEDIUM is an alias of DEFAULT (both are declared with
numeric value 2). -/
def SamplingLevel.MEDIUM : SamplingLevel := .DEFAULT

/-- The numeric value of each SamplingLevel member. -/
def SamplingLevel.value : SamplingLevel → Nat
  | .SMALL => 1
  | .DEFAULT => 2
  | .LARGE => 3

/-- The (name, value) declarations of SamplingLevel in source order. -/
def SamplingLevel.declarations : List (String × Nat) :=
  [("SMALL", 1), ("DEFAULT", 2), ("MEDIUM", 2), ("LARGE", 3)]

/-- Name resolution: Python Enum returns the first declared name carrying
the member value. -/
def SamplingLevel.name (l : SamplingLevel) : String :=
  ((SamplingLevel.declarations.find? (fun p => p.2 == l.value)).map
    (fun p => p.1)).getD ""

/-- The ColumnType enumeration of uar_types.py. -/
inductive ColumnType where
  | DIMENSION
  | METRIC
deriving DecidableEq, Repr

/-- The FilterType enumeration of uar_types.py. -/
inductive FilterType where
  | DIMENSION
  | METRIC
  | SEGMENT
deriving DecidableEq, Repr

/-- FilterType members in declaration order (iteration order of the enum,
used by UARequest.to_request when building filter clauses). -/
def FilterType.members : List FilterType :=
  [.DIMENSION, .METRIC, .SEGMENT]

/-- Normalise a kind tag and look it up, as Filter.from_doc does: uppercase
the tag, strip one trailing plural S, then index the enumeration. none
embeds the KeyError of a failed enum lookup. -/
def FilterType.fromTag (tag : String) : Option FilterType :=
  let up := tag.data.map upperChar
  let base := if up.getLast? = some 'S' then up.dropLast else up
  if base = "DIMENSION".data then some .DIMENSION
  else if base = "METRIC".data then some .METRIC
  else if base = "SEGMENT".data then some .SEGMENT
  else none

/-- Normalise a kind tag and look it up, as Column.from_doc does. -/
def ColumnType.fromTag (tag : String) : Option ColumnType :=
  let up := tag.data.map upperChar
  let base := if up.getLast? = some 'S' then up.dropLast else up
  if base = "DIMENSION".data then some .DIMENSION
  else if base = "METRIC".data then some .METRIC
  else none

/-! ## Filter expression values -/

/-- A parsed filter operand: number literal, quoted string literal, or a
list of operands (the parenthesised list of an IN expression). -/
inductive FValue where
  | int (n : Int)
  | str (v : String)
  | list (elems : List FValue)

mutual

/-- Python repr of a filter operand (used by str on lists). -/
def FValue.pyRepr : FValue → String
  | .int n => toString n
  | .str v => "\x27" ++ v ++ "\x27"
  | .list l => "[" ++ String.intercalate ", " (FValue.pyReprList l) ++ "]"

/-- Python repr of each operand of a list. -/
def FValue.pyReprList : List FValue → List String
  | [] => []
  | v :: vs => FValue.pyRepr v :: FValue.pyReprList vs

end

/-- Python str of a filter operand, as used for comparisonValue in
Filter.to_request. -/
def FValue.toPyString : FValue → String
  | .int n => toString n
  | .str v => v
  | .list l => "[" ++ String.intercalate ", " (FValue.pyReprList l) ++ "]"

mutual

/-- Embed a filter operand into a wire value (used for expressions in
Filter.to_request). -/
def FValue.toJVal : FValue → JVal
  | .int n => .i n
  | .str v => .s v
  | .list l => .arr (FValue.toJValList l)

/-- Embed each operand of a list into a wire value. -/
def FValue.toJValList : List FValue → List JVal
  | [] => []
  | v :: vs => FValue.toJVal v :: FValue.toJValList vs

end

/-! ## Expression grammar (uar_types.py, build_expr_parser)

The pyparsing grammar is embedded for the fragment the query documents
use: one term, optionally followed by a binary comparison token
< > <= >= = == <> != and a second term, or by IN and a parenthesised
comma-delimited term list. A term is a column reference (identifier), an
integer number literal (optionally signed), a single-quoted string
literal with the doubled-quote escape, or a TRUE/FALSE/NULL caseless
keyword. Outside the fragment are float literals, dotted table.column
references, double-quoted references, nested parenthesised expressions
and operator chains beyond the first comparison.

The source calls parse_string without parse_all=True, so pyparsing
accepts any parseable prefix and ignores trailing input. The embedding
reproduces this: if the binary or IN continuation fails to parse, the
alternative backtracks and the result is the bare leading term, exactly
as infix_notation falls back to the lone operand; a ParseException (the
error side, carrying the offending fragment) arises only when no leading
term can be parsed at all. A column-reference operand parses into a
one-element group; the embedding represents that group as a one-element
list value, which matches both the list() conversion applied to an IN
operand and the bracketed rendering that str() gives a ParseResults. -/

/-- Identifier start character (pyparsing identifier). -/
def isIdentStart (c : Char) : Bool := c.isAlpha || c = '_'

/-- Identifier continuation character (pyparsing identifier). -/
def isIdentChar (c : Char) : Bool := c.isAlphanum || c = '_'

/-- Decimal digits to a number. -/
def digitsToNat (l : List Char) : Nat :=
  l.foldl (fun a c => a * 10 + (c.toNat - 48)) 0

/-- Scan a single-quoted string literal with the doubled-quote escape,
returning the content and the rest of the input; the error carries the
unterminated fragment. The first argument is fuel (the scan consumes at
least one character per step and callers pass the input length). -/
def scanQuoted : Nat → List Char → Except (List Char) (List Char × List Char)
  | 0, l => .error l
  | _ + 1, [] => .error []
  | fuel + 1, c :: cs =>
    if c = '\x27' then
      match cs with
      | c2 :: cs2 =>
        if c2 = '\x27' then
          (scanQuoted fuel cs2).map (fun p => ('\x27' :: p.1, p.2))
        else .ok ([], cs)
      | [] => .ok ([], [])
    else (scanQuoted fuel cs).map (fun p => (c :: p.1, p.2))

/-- A parsed term of the expression grammar. -/
inductive PTerm where
  | column (name : String)
  | intLit (n : Int)
  | strLit (v : String)
deriving DecidableEq, Repr

/-- The value a term carries as an operand: a column reference parses
into a one-element group (represented as a one-element list), literals
parse into themselves. -/
def PTerm.operandValue : PTerm → FValue
  | .column name => .list [.str name]
  | .intLit n => .int n
  | .strLit v => .str v

/-- Drop the leading spaces pyparsing skips before every token. -/
def skipSpaces (l : List Char) : List Char :=
  l.dropWhile (fun c => c = ' ')

/-- Parse one leading term, returning it with the unconsumed rest; none
when the input does not start (after spaces) with a term of the
fragment. TRUE, FALSE and NULL match caselessly as keywords carrying
their canonical uppercase match string. -/
def parseTerm (l : List Char) : Option (PTerm × List Char) :=
  match skipSpaces l with
  | [] => none
  | c :: cs =>
    if isIdentStart c then
      let tk := (c :: cs).takeWhile isIdentChar
      let rest := (c :: cs).dropWhile isIdentChar
      let up := tk.map upperChar
      if up = "TRUE".data ∨ up = "FALSE".data ∨ up = "NULL".data then
        some (.strLit (String.mk up), rest)
      else
        some (.column (String.mk tk), rest)
    else if c.isDigit then
      some (.intLit (digitsToNat ((c :: cs).takeWhile Char.isDigit)),
        (c :: cs).dropWhile Char.isDigit)
    else if c = '-' then
      match cs with
      | d :: _ =>
        if d.isDigit then
          some (.intLit (-(digitsToNat (cs.takeWhile Char.isDigit) : Int)),
            cs.dropWhile Char.isDigit)
        else none
      | [] => none
    else if c = '\x27' then
      match scanQuoted (cs.length + 1) cs with
      | .ok (content, rest) => some (.strLit (String.mk content), rest)
      | .error _ => none
    else none

/-- Parse a leading comparison operator token, longest match first, as
one_of does. -/
def parseOpTok (l : List Char) : Option (String × List Char) :=
  match skipSpaces l with
  | '<' :: '=' :: rest => some ("<=", rest)
  | '<' :: '>' :: rest => some ("<>", rest)
  | '<' :: rest => some ("<", rest)
  | '>' :: '=' :: rest => some (">=", rest)
  | '>' :: rest => some (">", rest)
  | '=' :: '=' :: rest => some ("==", rest)
  | '=' :: rest => some ("=", rest)
  | '!' :: '=' :: rest => some ("!=", rest)
  | _ => none

/-- Parse the caseless IN keyword, returning the rest of the input. -/
def parseInKw (l : List Char) : Option (List Char) :=
  match skipSpaces l with
  | [] => none
  | c :: cs =>
    if isIdentStart c then
      let tk := (c :: cs).takeWhile isIdentChar
      if tk.map upperChar = "IN".data then
        some ((c :: cs).dropWhile isIdentChar)
      else none
    else none

/-- Parse the comma-delimited term list of an IN expression up to the
closing parenthesis. The first argument is fuel (each element consumes at
least one character). -/
def parseListRest : Nat → List Char → Option (List FValue × List Char)
  | 0, _ => none
  | fuel + 1, l =>
    match parseTerm l with
    | none => none
    | some (t, rest) =>
      match skipSpaces rest with
      | ',' :: rest2 =>
        match parseListRest fuel rest2 with
        | some (vs, rest3) => some (t.operandValue :: vs, rest3)
        | none => none
      | ')' :: rest2 => some ([t.operandValue], rest2)
      | _ => none

/-- Parse the parenthesised list that follows an IN keyword. -/
def parseInTail (l : List Char) : Option (List FValue × List Char) :=
  match skipSpaces l with
  | '(' :: rest => parseListRest (rest.length + 1) rest
  | _ => none

/-- The shapes parse_string(expr)[0] takes on the embedded fragment: a
binary comparison group, an IN membership group, or a bare term (the
fallback when no operator continuation parses). -/
inductive ParsedExpr where
  | binary (lhs : PTerm) (op : String) (rhs : PTerm)
  | inList (lhs : PTerm) (values : List FValue)
  | term (t : PTerm)

namespace Expression

/-- Expression.parse_string of uar_types.py on the embedded fragment,
with the prefix acceptance of parse_all=False: parse a leading term, then
try the comparison continuation, then the IN continuation, falling back
to the bare term when neither parses; input beyond the accepted prefix is
ignored. The error side models the pyparsing ParseException raised when
no leading term parses and carries the offending fragment. -/
def parse_string (s : String) : Except String ParsedExpr :=
  match parseTerm s.data with
  | none => .error (String.mk (skipSpaces s.data))
  | some (t, rest) =>
    match parseOpTok rest with
    | some (opTok, rest2) =>
      match parseTerm rest2 with
      | some (t2, _) => .ok (.binary t opTok t2)
      | none => .ok (.term t)
    | none =>
      match parseInKw rest with
      | some rest2 =>
        match parseInTail rest2 with
        | some (vs, _) => .ok (.inList t vs)
        | none => .ok (.term t)
      | none => .ok (.term t)

end Expression

/-! ## Filter (uar.py, class Filter) -/

/-- The Filter value object of uar.py. -/
structure Filter where
  ftype : FilterType
  operator : FilterOperator
  column : String
  value : FValue

/-- The failure modes of Filter.from_doc, the first three named after the
error taxonomy of the spec: parseError embeds the pyparsing
ParseException raised when no leading term parses (carrying the offending
fragment), unknownOperator embeds the StopIteration that AliasedEnum.get
raises when no FilterOperator member carries the operator token,
unknownFilterType embeds the KeyError of an unknown kind tag; indexError
embeds the IndexError raised by indexing parsed[1] on a bare-term result
(or a too-short string), and typeError the TypeError of subscripting an
integer result. -/
inductive FilterError where
  | parseError (fragment : String)
  | unknownOperator (token : String)
  | unknownFilterType (tag : String)
  | indexError
  | typeError
deriving DecidableEq, Repr

/-- parsed[0] on a binary or IN group is the left operand; indexing it
once more (parsed[0][0]) gives the column name of a column-reference
group, the first character of a string, or fails: TypeError on an
integer, IndexError on an empty string. -/
def columnOfOperand : PTerm → Except FilterError String
  | .column name => .ok name
  | .intLit _ => .error .typeError
  | .strLit v =>
    match v.data with
    | c :: _ => .ok (String.mk [c])
    | [] => .error .indexError

/-- parsed[0][0] of a parse result. On a bare term, parsed is the term
itself, so parsed[0] indexes into it: the group of a column reference
yields its name string and [0] of that string is its first character; a
bare integer is not subscriptable (TypeError); a bare string yields its
first character (IndexError when empty). -/
def ParsedExpr.columnItem : ParsedExpr → Except FilterError String
  | .binary lhs _ _ => columnOfOperand lhs
  | .inList lhs _ => columnOfOperand lhs
  | .term (.column name) =>
    match name.data with
    | c :: _ => .ok (String.mk [c])
    | [] => .error .indexError
  | .term (.intLit _) => .error .typeError
  | .term (.strLit v) =>
    match v.data with
    | c :: _ => .ok (String.mk [c])
    | [] => .error .indexError

/-- parsed[1] of a parse result: the operator token of a comparison, the
IN keyword of a membership, the second character of a bare string, and an
IndexError on any other bare term (a lone group or integer has no second
item). -/
def ParsedExpr.operatorItem : ParsedExpr → Except FilterError String
  | .binary _ opTok _ => .ok opTok
  | .inList _ _ => .ok "IN"
  | .term (.strLit v) =>
    match v.data with
    | _ :: c2 :: _ => .ok (String.mk [c2])
    | _ => .error .indexError
  | .term _ => .error .indexError

/-- parsed[2] of a parse result: the right operand of a comparison, the
element group of a membership, the third character of a bare string, and
an IndexError otherwise. -/
def ParsedExpr.valueItem : ParsedExpr → Except FilterError FValue
  | .binary _ _ rhs => .ok rhs.operandValue
  | .inList _ elems => .ok (.list elems)
  | .term (.strLit v) =>
    match v.data with
    | _ :: _ :: c3 :: _ => .ok (.str (String.mk [c3]))
    | _ => .error .indexError
  | .term _ => .error .indexError

/-- The list() conversion applied to parsed[2] for an IN operator: a
group stays a list of its elements, a string splits into its characters,
an integer is not iterable (TypeError; unreachable, since only the
membership shape resolves to the IN alias). -/
def pyListConv : FValue → Except FilterError FValue
  | .list l => .ok (.list l)
  | .str v => .ok (.list (v.data.map (fun c => FValue.str (String.mk [c]))))
  | .int _ => .error .typeError

/-- Filter.from_doc of uar.py: parse the expression, read column, operator
token and operand by indexing the result (parsed[0][0], parsed[1],
parsed[2]), resolve the token through the alias lookup, convert the
operand of an IN operator with list(), normalise the kind tag, and build
the Filter. The failure points occur in exactly this order in the
source. -/
def Filter.from_doc (ftype : String) (expr : String) : Except FilterError Filter :=
  match Expression.parse_string expr with
  | .error fragment => .error (.parseError fragment)
  | .ok parsed =>
    match parsed.columnItem with
    | .error e => .error e
    | .ok col =>
      match parsed.operatorItem with
      | .error e => .error e
      | .ok opTok =>
        match FilterOperator.getExpr opTok with
        | none => .error (.unknownOperator opTok)
        | some op =>
          match parsed.valueItem with
          | .error e => .error e
          | .ok v0 =>
            match (if op = FilterOperator.IN then pyListConv v0 else .ok v0) with
            | .error e => .error e
            | .ok value =>
              match FilterType.fromTag ftype with
              | none => .error (.unknownFilterType ftype)
              | some ft => .ok ⟨ft, op, col, value⟩

/-- Filter.to_request of uar.py. A dimension filter wraps a scalar operand
in a singleton expressions list (the IN operand is kept whole); a metric
filter stringifies the operand; a segment filter is unhandled and the
method returns the NotImplemented sentinel. -/
def Filter.to_request (f : Filter) : JVal :=
  match f.ftype with
  | .DIMENSION =>
    let value : List FValue :=
      match f.operator, f.value with
      | .IN, .list l => l
      | .IN, other => [other]
      | _, v => [v]
    .obj [("dimensionName", .s ("ga:" ++ f.column)),
          ("not", .b f.operator.value.ua.negated),
          ("operator", .s f.operator.value.ua.op),
          ("expressions", .arr (value.map FValue.toJVal)),
          ("caseSensitive", .b true)]
  | .METRIC =>
    .obj [("metricName", .s ("ga:" ++ f.column)),
          ("not", .b f.operator.value.ua.negated),
          ("operator", .s f.operator.value.ua.op),
          ("comparisonValue", .s f.value.toPyString)]
  | .SEGMENT => .notImplemented

/-! ## Column, request key, query options, request, batch (uar.py) -/

/-- The Column value object of uar.py. -/
structure Column where
  ctype : ColumnType
  expression : String
  aliasName : Option String := none
deriving DecidableEq, Repr

/-- Column.to_request of uar.py. -/
def Column.to_request (c : Column) : JVal :=
  match c.ctype with
  | .DIMENSION => .obj [("name", .s ("ga:" ++ c.expression))]
  | .METRIC => .obj [("expression", .s ("ga:" ++ c.expression))]

/-- DateRange.to_request of uar.py: ISO strings of both endpoints. -/
def DateRange.to_request (r : DateRange) : JVal :=
  .obj [("startDate", .s r.start_date.isoformat),
        ("endDate", .s r.end_date.isoformat)]

/-- The UARequestKey value object of uar.py. Segments and cohort carry no
data in the source (empty attrs classes); they participate only in key
equality. -/
structure UARequestKey where
  view_id : Int
  date_ranges : List DateRange
  sampling : SamplingLevel := .LARGE
  segments : Option (List Unit) := none
  cohort : Option Unit := none
deriving DecidableEq, Repr

/-- UARequestKey.to_request of uar.py. -/
def UARequestKey.to_request (k : UARequestKey) : List (String × JVal) :=
  [("viewId", .s (toString k.view_id)),
   ("dateRanges", .arr (k.date_ranges.map DateRange.to_request)),
   ("samplingLevel", .s k.sampling.name)]

/-- The UAQueryOptions value object of uar.py with its constructor
defaults. -/
structure UAQueryOptions where
  page_size : Int := 10000
  page_token : Option String := none
  include_empty_rows : Bool := false
  include_totals : Bool := false
  include_value_ranges : Bool := false
deriving DecidableEq, Repr

/-- UAQueryOptions.to_request of uar.py: the four unconditional entries,
with hideTotals and hideValueRanges the logical negations of the parsed
fields, merged with a pageToken entry only when page_token is set. -/
def UAQueryOptions.to_request (q : UAQueryOptions) : List (String × JVal) :=
  let opts := [("pageSize", JVal.i q.page_size),
               ("includeEmptyRows", JVal.b q.include_empty_rows),
               ("hideTotals", JVal.b (!q.include_totals)),
               ("hideValueRanges", JVal.b (!q.include_value_ranges))]
  let pt := match q.page_token with
    | some t => [("pageToken", JVal.s t)]
    | none => []
  mergeDict opts pt

/-- The UARequest value object of uar.py. -/
structure UARequest where
  key : UARequestKey
  columns : List Column
  filters : Option (List Filter) := none
  query_options : UAQueryOptions := {}

/-- The derived dimensions of a request (default factory of uar.py:
kind-filter over columns). -/
def UARequest.dimensions (r : UARequest) : List Column :=
  r.columns.filter (fun c => c.ctype == .DIMENSION)

/-- The derived metrics of a request (default factory of uar.py:
kind-filter over columns). -/
def UARequest.metrics (r : UARequest) : List Column :=
  r.columns.filter (fun c => c.ctype == .METRIC)

/-- The wire key of a filter clause group, filter_type.name.lower() ++
FilterClauses. -/
def FilterType.clauseKey : FilterType → String
  | .DIMENSION => "dimensionFilterClauses"
  | .METRIC => "metricFilterClauses"
  | .SEGMENT => "segmentFilterClauses"

/-- build_filter_clause of UARequest.to_request, applied to every
FilterType in declaration order, keeping only the kinds with at least one
filter (a None filters attribute behaves as an empty list). -/
def UARequest.filterClauses (r : UARequest) : List (String × JVal) :=
  FilterType.members.filterMap (fun ft =>
    let fls := ((r.filters.getD []).filter (fun f => f.ftype == ft)).map Filter.to_request
    if fls.length > 0 then
      some (ft.clauseKey,
        JVal.arr [JVal.obj [("operator", JVal.s "AND"), ("filters", JVal.arr fls)]])
    else none)

/-- UARequest.to_request of uar.py: the merge of the key section, the
column section, the filter clauses and the query options. -/
def UARequest.to_request (r : UARequest) : List (String × JVal) :=
  let cols := [("dimensions", JVal.arr (r.dimensions.map Column.to_request)),
               ("metrics", JVal.arr (r.metrics.map Column.to_request))]
  mergeDict (mergeDict (mergeDict r.key.to_request cols) r.filterClauses)
    r.query_options.to_request

/-- The UARequestBatch of uar.py: a mapping (insertion-ordered) from key to
the requests sharing it, with the class-level maximum batch size (default
5, rebound by callers). -/
structure UARequestBatch where
  MAXSIZE : Nat := 5
  data : List (UARequestKey × List UARequest)

/-- UARequestBatch.to_request of uar.py: for each key in order, chunk its
request list into groups of at most MAXSIZE, wrap each chunk as a
reportRequests object, and flatten. The result carries no key tags. -/
def UARequestBatch.to_request (b : UARequestBatch) : List JVal :=
  (b.data.map (fun kv =>
    (chunk kv.2 b.MAXSIZE).map (fun batch =>
      JVal.obj [("reportRequests",
        JVal.arr (batch.map (fun q => JVal.obj q.to_request)))]))).flatten

/-! ## Sampling resolver (ga-reporting.py, split_request) -/

/-- Microseconds per day (timedelta resolution bookkeeping). -/
def usPerDay : Nat := 86400000000

/-- Microseconds per second. -/
def usPerSecond : Nat := 1000000

/-- calculate_samples of ga-reporting.py: the number of intervals required
to refine a sampled request, ceil(num_sessions / num_samples * 4 / 3),
with true division as in the source. -/
def calculate_samples (num_sessions num_samples : Nat) : Int :=
  (((num_sessions : ℚ) / num_samples * 4) / 3).ceil

/-- Division of a by n rounded to the nearest integer, ties to even: the
rounding timedelta division applies at microsecond resolution. -/
def roundHalfEven (a n : Nat) : Nat :=
  a / n + (if 2 * (a % n) > n ∨ (2 * (a % n) = n ∧ (a / n) % 2 = 1) then 1 else 0)

/-- The per-interval length in days computed by generate_intervals:
temp = (end - start + one day) / num_intervals, a timedelta division that
rounds to the nearest microsecond (ties to even), followed by
interval_len = temp.days + (1 if temp.seconds > 0 else 0); temp.days and
temp.seconds are the day and whole-second components of the rounded
microsecond total. -/
def intervalLen (totalDays n : Nat) : Nat :=
  let qus := roundHalfEven (totalDays * usPerDay) n
  qus / usPerDay + (if 0 < qus % usPerDay / usPerSecond then 1 else 0)

/-- The loop of generate_intervals: emit one range of interval_len days
per iteration, advancing the start cursor. -/
def generate_intervals_go (s : Int) (len : Nat) : Nat → List (Int × Int)
  | 0 => []
  | k + 1 => (s, s + len - 1) :: generate_intervals_go (s + len) len k

/-- generate_intervals of ga-reporting.py for one date range, on date
ordinals: s and e are the ordinals of startDate and endDate. The loop
emits num_intervals - 1 ranges of interval_len days, then one final range
from the cursor to the original end date. -/
def generate_intervals (s e : Int) (n : Nat) : List (Int × Int) :=
  let totalDays := (e - s + 1).toNat
  let len := intervalLen totalDays n
  generate_intervals_go s len (n - 1) ++ [(s + ((n - 1 : Nat) : Int) * (len : Int), e)]

/-- Contiguity checker: the ranges start exactly at s, are individually
non-empty, and each subsequent range starts the day after the previous
one ends (hence no gap and no overlap). -/
def chainFromB (s : Int) : List (Int × Int) → Bool
  | [] => true
  | (a, b) :: rest => (a == s) && decide (a ≤ b) && chainFromB (b + 1) rest

/-- The subdivision property the spec claims for generate_intervals, as a
decidable check on the emitted ranges: exactly n contiguous non-empty
ranges, starting at s, ending at e, the first n - 1 spanning exactly
ceil(totalDays / n) days and the last spanning at most that many. -/
def claimedSubdivisionB (s e : Int) (n : Nat) : Bool :=
  let totalDays := (e - s + 1).toNat
  let len := (totalDays + n - 1) / n
  let L := generate_intervals s e n
  (L.length == n) &&
  chainFromB s L &&
  (match L.getLast? with
   | some p => p.2 == e
   | none => false) &&
  ((L.take (n - 1)).all (fun p => p.2 - p.1 + 1 == (len : Int))) &&
  (match L.getLast? with
   | some p => decide (p.2 - p.1 + 1 ≤ (len : Int))
   | none => false)

/-! ## Concrete instances used to evaluate the serializers

These mirror the scenario of the repository test suite: two requests
sharing one key (date range 2022-01-01 to 2022-03-31 on view 16619750),
and a request carrying a segment filter. -/

/-- The shared request key of the batch scenario. -/
def exampleKey : UARequestKey :=
  ⟨16619750, [⟨⟨2022, 1, 1⟩, ⟨2022, 3, 31⟩⟩], .LARGE, none, none⟩

/-- First request of the batch scenario (date by sessions). -/
def exampleRequest1 : UARequest :=
  ⟨exampleKey, [⟨.DIMENSION, "date", none⟩, ⟨.METRIC, "sessions", none⟩], none, {}⟩

/-- Second request of the batch scenario (campaign by pageviews). -/
def exampleRequest2 : UARequest :=
  ⟨exampleKey, [⟨.DIMENSION, "campaign", none⟩, ⟨.METRIC, "pageviews", none⟩], none, {}⟩

/-- The batch of the splitting test: both requests under their shared key
with the maximum batch size rebound to 1. -/
def exampleBatch : UARequestBatch :=
  ⟨1, [(exampleKey, [exampleRequest1, exampleRequest2])]⟩

/-- A filter of the segment kind. -/
def exampleSegmentFilter : Filter :=
  ⟨.SEGMENT, .EQ, "audience", .str "x"⟩

/-- A request holding a segment filter. -/
def exampleSegmentRequest : UARequest :=
  ⟨exampleKey, [⟨.DIMENSION, "date", none⟩, ⟨.METRIC, "sessions", none⟩],
   some [exampleSegmentFilter], {}⟩

/-! # Theorems -/

/-! ## Day-sequence facts for DateRange (claim C1) -/

/-- Claim C1: for every DateRange, the length is the number of days in the
inclusive span (28 days for 2022-02-01..2022-02-28 and 91 days for
2020-01-01..2020-03-31), a date is a member exactly when its ordinal lies
in the day sequence running from start to end, and indexed access returns
day i of that sequence, with index 0 the start date, negative indices
counting from the end (index -1 the end date), and out of range yielding
none. -/
theorem C1_dateRange_day_sequence :
    (DateRange.mk ⟨2022, 2, 1⟩ ⟨2022, 2, 28⟩).length = 28 ∧
    (DateRange.mk ⟨2020, 1, 1⟩ ⟨2020, 3, 31⟩).length = 91 ∧
    ∀ r : DateRange, r.start_date.toOrdinal ≤ r.end_date.toOrdinal →
      (r.days.length = r.length ∧
       (∀ d : Date, r.containsDate d = true ↔ d.toOrdinal ∈ r.days) ∧
       (∀ k : Nat, k < r.length →
          r.getItem (k : Int) = some (r.start_date.toOrdinal + k)) ∧
       (∀ k : Nat, 1 ≤ k → k ≤ r.length →
          r.getItem (-(k : Int)) = some (r.start_date.toOrdinal + (r.length - k))) ∧
       r.getItem 0 = some r.start_date.toOrdinal ∧
       r.getItem (-1) = some r.end_date.toOrdinal ∧
       (∀ i : Int, ((r.length : Int) ≤ i ∨ i < -(r.length : Int)) →
          r.getItem i = none)) := by
  refine ⟨by decide, by decide, ?_⟩
  intro r h
  have hlen : r.length = r.end_date.toOrdinal - r.start_date.toOrdinal + 1 := rfl
  refine ⟨?_, ?_, ?_, ?_, ?_, ?_, ?_⟩
  · simp [DateRange.days]
  · intro d
    simp only [DateRange.containsDate, DateRange.days, List.mem_map,
      List.mem_range, Bool.and_eq_true, decide_eq_true_eq]
    constructor
    · rintro ⟨h1, h2⟩
      exact ⟨d.toOrdinal - r.start_date.toOrdinal, by omega, by omega⟩
    · rintro ⟨k, hk, hke⟩
      omega
  · intro k hk
    simp only [DateRange.getItem, DateRange.length] at hk ⊢
    split_ifs <;> first | rfl | (rw [Option.some_inj]; omega) | (exfalso; omega)
  · intro k hk1 hk2
    simp only [DateRange.getItem, DateRange.length] at hk2 ⊢
    split_ifs <;> first | rfl | (rw [Option.some_inj]; omega) | (exfalso; omega)
  · simp only [DateRange.getItem, DateRange.length]
    split_ifs <;> first | rfl | (rw [Option.some_inj]; omega) | (exfalso; omega)
  · simp only [DateRange.getItem, DateRange.length]
    split_ifs <;> first | rfl | (rw [Option.some_inj]; omega) | (exfalso; omega)
  · intro i hi
    simp only [DateRange.getItem, DateRange.length] at hi ⊢
    split_ifs <;> first | rfl | (exfalso; omega)

/-- Witness for claim C1 at the February 2022 range of the test suite. -/
theorem C1_dateRange_day_sequence_witness :
    (DateRange.mk ⟨2022, 2, 1⟩ ⟨2022, 2, 28⟩).getItem (-1) =
      some (Date.toOrdinal ⟨2022, 2, 28⟩) ∧
    (DateRange.mk ⟨2022, 2, 1⟩ ⟨2022, 2, 28⟩).containsDate ⟨2022, 2, 14⟩ = true := by
  have h := C1_dateRange_day_sequence.2.2 (DateRange.mk ⟨2022, 2, 1⟩ ⟨2022, 2, 28⟩)
    (by decide)
  exact ⟨h.2.2.2.2.2.1, by decide⟩

/-! ## Case conversion round trips (claim C9) -/

/-- Characters below the surrogate range survive the Char.ofNat round
trip. -/
theorem charToNat_ofNat (n : Nat) (h : n < 55296) : (Char.ofNat n).toNat = n := by
  have hv : n.isValidChar := Or.inl h
  simp [Char.ofNat, hv, Char.ofNatAux, Char.toNat]
  rfl

/-- Lowercasing an uppercase ASCII character yields a lowercase one. -/
theorem isLowerAscii_lowerChar {c : Char} (h : isUpperAscii c = true) :
    isLowerAscii (lowerChar c) = true := by
  have hb : 65 ≤ c.toNat ∧ c.toNat ≤ 90 := by
    simpa only [isUpperAscii, Bool.and_eq_true, decide_eq_true_eq] using h
  have hv : (Char.ofNat (c.toNat + 32)).toNat = c.toNat + 32 :=
    charToNat_ofNat _ (by omega)
  rw [lowerChar, if_pos h]
  simp only [isLowerAscii, Bool.and_eq_true, decide_eq_true_eq, hv]
  omega

/-- Uppercasing undoes lowercasing on uppercase ASCII characters. -/
theorem upperChar_lowerChar {c : Char} (h : isUpperAscii c = true) :
    upperChar (lowerChar c) = c := by
  have hb : 65 ≤ c.toNat ∧ c.toNat ≤ 90 := by
    simpa only [isUpperAscii, Bool.and_eq_true, decide_eq_true_eq] using h
  have hv : (Char.ofNat (c.toNat + 32)).toNat = c.toNat + 32 :=
    charToNat_ofNat _ (by omega)
  have hl : isLowerAscii (Char.ofNat (c.toNat + 32)) = true := by
    simp only [isLowerAscii, Bool.and_eq_true, decide_eq_true_eq, hv]
    omega
  rw [lowerChar, if_pos h, upperChar, if_pos hl, hv]
  have he : c.toNat + 32 - 32 = c.toNat := by omega
  rw [he, Char.ofNat_toNat]

/-- Uppercasing a lowercase ASCII character yields an uppercase one. -/
theorem isUpperAscii_upperChar {c : Char} (h : isLowerAscii c = true) :
    isUpperAscii (upperChar c) = true := by
  have hb : 97 ≤ c.toNat ∧ c.toNat ≤ 122 := by
    simpa only [isLowerAscii, Bool.and_eq_true, decide_eq_true_eq] using h
  have hv : (Char.ofNat (c.toNat - 32)).toNat = c.toNat - 32 :=
    charToNat_ofNat _ (by omega)
  rw [upperChar, if_pos h]
  simp only [isUpperAscii, Bool.and_eq_true, decide_eq_true_eq, hv]
  omega

/-- Lowercasing undoes uppercasing on lowercase ASCII characters. -/
theorem lowerChar_upperChar {c : Char} (h : isLowerAscii c = true) :
    lowerChar (upperChar c) = c := by
  have hb : 97 ≤ c.toNat ∧ c.toNat ≤ 122 := by
    simpa only [isLowerAscii, Bool.and_eq_true, decide_eq_true_eq] using h
  have hv : (Char.ofNat (c.toNat - 32)).toNat = c.toNat - 32 :=
    charToNat_ofNat _ (by omega)
  have hu : isUpperAscii (Char.ofNat (c.toNat - 32)) = true := by
    simp only [isUpperAscii, Bool.and_eq_true, decide_eq_true_eq, hv]
    omega
  rw [upperChar, if_pos h, lowerChar, if_pos hu, hv]
  have he : c.toNat - 32 + 32 = c.toNat := by omega
  rw [he, Char.ofNat_toNat]

/-- Unfolding step of snake_to_camel_case at a head that is not an
underscore. -/
theorem s2c_cons_ne (c : Char) (l : List Char) (hc : c ≠ '_') :
    snake_to_camel_case (c :: l) = c :: snake_to_camel_case l :=
  snake_to_camel_case.eq_3 c l (fun _ _ hc2 _ => hc hc2)

/-- Round trip camel to snake and back for strings without underscores. -/
theorem camel_snake_inverse (x : List Char) (hx : '_' ∉ x) :
    snake_to_camel_case (camel_to_snake_case x) = x := by
  induction x with
  | nil => rfl
  | cons c cs ih =>
    have hc : c ≠ '_' := fun h => hx (by rw [← h] at *; exact List.mem_cons_self c cs)
    have hcs : '_' ∉ cs := fun h => hx (List.mem_cons_of_mem _ h)
    by_cases hu : isUpperAscii c = true
    · rw [camel_to_snake_case, if_pos hu]
      rw [snake_to_camel_case, if_pos (isLowerAscii_lowerChar hu)]
      rw [upperChar_lowerChar hu, ih hcs]
    · rw [camel_to_snake_case, if_neg hu]
      rw [s2c_cons_ne _ _ hc, ih hcs]

/-- Round trip snake to camel and back for strings without ASCII
uppercase characters. -/
theorem snake_camel_inverse (y : List Char) (hy : ∀ c ∈ y, isUpperAscii c = false) :
    camel_to_snake_case (snake_to_camel_case y) = y := by
  induction y using snake_to_camel_case.induct with
  | case1 => rfl
  | case2 c2 cs2 hlow ih =>
    have h2 : ∀ c ∈ cs2, isUpperAscii c = false := fun c hc =>
      hy c (List.mem_cons_of_mem _ (List.mem_cons_of_mem _ hc))
    rw [snake_to_camel_case, if_pos hlow]
    rw [camel_to_snake_case, if_pos (isUpperAscii_upperChar hlow)]
    rw [lowerChar_upperChar hlow, ih h2]
  | case3 c2 cs2 hlow ih =>
    have h2 : ∀ c ∈ (c2 :: cs2), isUpperAscii c = false := fun c hc =>
      hy c (List.mem_cons_of_mem _ hc)
    rw [snake_to_camel_case, if_neg hlow]
    rw [camel_to_snake_case, if_neg (by decide)]
    rw [ih h2]
  | case4 c cs hex ih =>
    have hcfalse : isUpperAscii c = false := hy c (List.mem_cons_self _ _)
    have h2 : ∀ x ∈ cs, isUpperAscii x = false := fun x hx2 =>
      hy x (List.mem_cons_of_mem _ hx2)
    rw [snake_to_camel_case.eq_3 c cs hex]
    rw [camel_to_snake_case, if_neg (by rw [hcfalse]; exact Bool.false_ne_true)]
    rw [ih h2]

/-- Claim C9 (amended): the conversions form an inverse pair on their
natural domains: snake after camel is the identity on strings containing
no underscore at all, and camel after snake is the identity on strings
containing no ASCII uppercase letter (in particular on every snake_case
identifier). -/
theorem C9_case_conversion_inverse_pair :
    (∀ x : List Char, '_' ∉ x →
       snake_to_camel_case (camel_to_snake_case x) = x) ∧
    (∀ y : List Char, (∀ c ∈ y, isUpperAscii c = false) →
       camel_to_snake_case (snake_to_camel_case y) = y) :=
  ⟨camel_snake_inverse, snake_camel_inverse⟩

/-- Counterexample to claim C9 as stated: the identifier a_b has no
leading or trailing underscore and no digit, yet the camel-then-snake
round trip moves it to aB. -/
theorem C9_counterexample :
    ("a_b".data.head? ≠ some '_' ∧ "a_b".data.getLast? ≠ some '_' ∧
     ∀ c ∈ "a_b".data, c.isDigit = false) ∧
    camel_to_snake_case "a_b".data = "a_b".data ∧
    snake_to_camel_case (camel_to_snake_case "a_b".data) = "aB".data ∧
    snake_to_camel_case (camel_to_snake_case "a_b".data) ≠ "a_b".data := by
  exact ⟨by decide, rfl, rfl, by decide⟩

/-- Witness for claim C9 at the identifiers of the test suite. -/
theorem C9_roundtrip_witness :
    snake_to_camel_case (camel_to_snake_case "pageSize".data) = "pageSize".data ∧
    camel_to_snake_case (snake_to_camel_case "page_size".data) = "page_size".data :=
  ⟨C9_case_conversion_inverse_pair.1 _ (by decide),
   C9_case_conversion_inverse_pair.2 _ (by decide)⟩

/-! ## Sampling refinement factor (claim C2) -/

/-- The computable rational ceiling agrees with the ceiling of the ordered
field structure. -/
theorem ratCeil_eq (a : ℚ) : a.ceil = ⌈a⌉ := by
  rw [Rat.ceil]
  split
  · next h =>
    have ha : ((a.num : ℚ)) = a := by
      have h2 := Rat.num_div_den a
      rw [h] at h2
      simpa using h2
    conv_rhs => rw [← ha]
    rw [Int.ceil_intCast]
  · next h =>
    have hfl : ⌊a⌋ = a.num / a.den := Rat.floor_def
    have hne : (⌊a⌋ : ℚ) ≠ a := by
      intro heq
      have : a.den = 1 := by rw [← heq]; exact Rat.den_intCast _
      exact h this
    have hlt : (⌊a⌋ : ℚ) < a := lt_of_le_of_ne (Int.floor_le a) hne
    rw [← hfl]
    symm
    rw [Int.ceil_eq_iff]
    constructor
    · push_cast
      linarith
    · have := Int.lt_floor_add_one a
      push_cast at this ⊢
      linarith

/-- The ceiling of a quotient of naturals as natural division rounding
up. -/
theorem ceil_natCast_div (a b : Nat) (hb : 0 < b) :
    ⌈((a : ℚ) / b)⌉ = ((a + b - 1) / b : Nat) := by
  set z : Nat := (a + b - 1) / b with hz
  have h1 : z * b ≤ a + b - 1 := by
    rw [hz]
    exact Nat.div_mul_le_self _ _
  have h2 : a ≤ b * z := by
    have := Nat.div_add_mod (a + b - 1) b
    have hm : (a + b - 1) % b < b := Nat.mod_lt _ hb
    rw [hz]
    omega
  rw [Int.ceil_eq_iff]
  have hbq : (0 : ℚ) < b := by exact_mod_cast hb
  constructor
  · rw [lt_div_iff₀ hbq]
    have h3 : ((z : ℤ) - 1) * b < a := by
      have h1a : (z : ℤ) * b ≤ (a : ℤ) + b - 1 := by
        zify at h1
        omega
      have hb1 : (1 : ℤ) ≤ b := by exact_mod_cast hb
      nlinarith
    calc ((z : ℚ) - 1) * b = ((((z : ℤ) - 1) * b : ℤ) : ℚ) := by push_cast; ring
    _ < a := by exact_mod_cast h3
  · rw [div_le_iff₀ hbq]
    calc (a : ℚ) ≤ ((b * z : ℕ) : ℚ) := by exact_mod_cast h2
    _ = (z : ℚ) * b := by push_cast; ring

/-- Closed form of calculate_samples: ceiling of 4s over 3n, computed with
natural division. -/
theorem calculate_samples_eq (s n : Nat) (h : 0 < n) :
    calculate_samples s n = ((4 * s + 3 * n - 1) / (3 * n) : Nat) := by
  rw [calculate_samples, ratCeil_eq]
  have hn : ((n : ℚ)) ≠ 0 := by
    exact_mod_cast Nat.pos_iff_ne_zero.mp h
  have hq : ((s : ℚ) / n * 4) / 3 = ((4 * s : Nat) : ℚ) / ((3 * n : Nat) : ℚ) := by
    push_cast
    field_simp
    ring
  rw [hq, ceil_natCast_div _ _ (by omega)]

/-- Claim C2 (amended): the refinement factor is the ceiling of
sampled_space / samples_read * 4/3; on the documented concrete markers
(sampling space 1000000, samples read 250000) the computed number of
intervals is 6. -/
theorem C2_refinement_factor :
    (∀ s n : Nat, 0 < n →
       calculate_samples s n = ((4 * s + 3 * n - 1) / (3 * n) : Nat)) ∧
    calculate_samples 1000000 250000 = 6 := by
  refine ⟨calculate_samples_eq, ?_⟩
  rw [calculate_samples_eq 1000000 250000 (by norm_num)]
  decide

/-- Counterexample to claim C2 as stated: on sampling space 1000000 and
samples read 250000 the code computes ceil(4 * 4/3) = 6 intervals, not
4. -/
theorem C2_counterexample : calculate_samples 1000000 250000 ≠ 4 := by
  rw [calculate_samples_eq 1000000 250000 (by norm_num)]
  decide

/-- Witness for claim C2 at the documented sampling markers. -/
theorem C2_refinement_factor_witness :
    calculate_samples 1000000 250000 =
      ((4 * 1000000 + 3 * 250000 - 1) / (3 * 250000) : Nat) ∧
    ((4 * 1000000 + 3 * 250000 - 1) / (3 * 250000) : Nat) = 6 :=
  ⟨C2_refinement_factor.1 1000000 250000 (by norm_num), by decide⟩

/-! ## Date range subdivision (claim C3) -/

/-- For at most 86400 intervals the timedelta computation of
generate_intervals produces exactly the ceiling of totalDays over n: the
fractional day part of the division, when present, is at least one second,
so temp.seconds is positive exactly when the division is inexact. -/
theorem intervalLen_eq_ceil (D n : Nat) (h1 : 1 ≤ n) (h2 : n ≤ 86400) :
    intervalLen D n = (D + n - 1) / n := by
  have hn : 0 < n := h1
  have hUval : usPerDay = 86400000000 := rfl
  have hMval : usPerSecond = 1000000 := rfl
  have hU0 : 0 < usPerDay := by decide
  have hD := Nat.div_add_mod D n
  set q := D / n with hq
  set r := D % n with hr
  have hrlt : r < n := Nat.mod_lt _ hn
  have e1 : D * usPerDay = n * (q * usPerDay) + r * usPerDay := by
    rw [← hD]
    ring
  have hQ : D * usPerDay / n = q * usPerDay + r * usPerDay / n := by
    rw [e1, Nat.mul_add_div hn]
  have hR : D * usPerDay % n = r * usPerDay % n := by
    rw [e1, Nat.mul_add_mod]
  rcases Nat.eq_zero_or_pos r with hr0 | hrpos
  · have ha_div : D * usPerDay / n = q * usPerDay := by
      rw [hQ, hr0]
      simp
    have ha_mod : D * usPerDay % n = 0 := by
      rw [hR, hr0]
      simp
    have hround : roundHalfEven (D * usPerDay) n = q * usPerDay := by
      rw [roundHalfEven, ha_div, ha_mod, if_neg]
      · simp
      · rintro (hc | ⟨hc, _⟩) <;> omega
    simp only [intervalLen, hround]
    rw [Nat.mul_div_cancel q hU0, Nat.mul_mod_left]
    simp only [Nat.zero_div, Nat.lt_irrefl, if_false]
    symm
    have hle : q * n ≤ D + n - 1 := by
      have := Nat.mul_comm q n
      omega
    have hlt : D + n - 1 < (q + 1) * n := by
      have e : (q + 1) * n = q * n + n := by ring
      have := Nat.mul_comm q n
      omega
    exact Nat.div_eq_of_lt_le hle hlt
  · set A := r * usPerDay / n with hA
    have hAlow : usPerSecond ≤ A := by
      rw [hA, Nat.le_div_iff_mul_le hn]
      calc usPerSecond * n ≤ usPerSecond * 86400 := Nat.mul_le_mul_left _ h2
      _ = usPerDay := by decide
      _ ≤ r * usPerDay := Nat.le_mul_of_pos_left _ hrpos
    have hAhigh : A ≤ (n - 1) * usPerDay / n := by
      rw [hA]
      exact Nat.div_le_div_right (Nat.mul_le_mul_right _ (by omega))
    have hup : (n - 1) * usPerDay / n < usPerDay - 1 := by
      rw [Nat.div_lt_iff_lt_mul hn]
      have e2 : (n - 1) * usPerDay = n * usPerDay - usPerDay := by
        rw [Nat.sub_mul, Nat.one_mul]
      have e3 : (usPerDay - 1) * n = usPerDay * n - n := by
        rw [Nat.sub_mul, Nat.one_mul]
      have e4 : n * usPerDay = usPerDay * n := Nat.mul_comm n usPerDay
      have e5 : 1 * usPerDay ≤ n * usPerDay := Nat.mul_le_mul_right _ h1
      omega
    have hA2 : A < usPerDay - 1 := Nat.lt_of_le_of_lt hAhigh hup
    set Q := roundHalfEven (D * usPerDay) n with hQdef
    have hbound : D * usPerDay / n ≤ Q ∧ Q ≤ D * usPerDay / n + 1 := by
      rw [hQdef, roundHalfEven]
      constructor <;> (split <;> omega)
    rw [hQ] at hbound
    obtain ⟨x, hxQ, hx1, hx2⟩ :
        ∃ x, Q = q * usPerDay + x ∧ A ≤ x ∧ x ≤ A + 1 :=
      ⟨Q - q * usPerDay, by omega, by omega, by omega⟩
    have hxlt : x < usPerDay := by omega
    have hxge : usPerSecond ≤ x := by omega
    have hdays : Q / usPerDay = q := by
      rw [hxQ, Nat.mul_comm q usPerDay, Nat.mul_add_div hU0,
        Nat.div_eq_of_lt hxlt]
      omega
    have hmod : Q % usPerDay = x := by
      rw [hxQ, Nat.mul_comm q usPerDay, Nat.mul_add_mod, Nat.mod_eq_of_lt hxlt]
    have hsec : 0 < Q % usPerDay / usPerSecond := by
      rw [hmod]
      exact Nat.div_pos hxge (by decide)
    simp only [intervalLen, ← hQdef]
    rw [hdays, if_pos hsec]
    symm
    have hle : (q + 1) * n ≤ D + n - 1 := by
      have e : (q + 1) * n = q * n + n := by ring
      have := Nat.mul_comm q n
      omega
    have hlt : D + n - 1 < (q + 1 + 1) * n := by
      have e : (q + 1 + 1) * n = q * n + n + n := by ring
      have := Nat.mul_comm q n
      omega
    exact Nat.div_eq_of_lt_le hle hlt

/-- The loop of generate_intervals emits exactly its iteration count of
ranges. -/
theorem generate_intervals_go_length (s : Int) (len : Nat) (k : Nat) :
    (generate_intervals_go s len k).length = k := by
  induction k generalizing s with
  | zero => rfl
  | succ k ih => simp [generate_intervals_go, ih]

/-- The ranges the loop emits, followed by the final absorbed range, are
contiguous, individually non-empty, and start exactly at the cursor. -/
theorem chainFromB_go_concat (len : Nat) (hlen : 1 ≤ len) :
    ∀ (k : Nat) (s E : Int), s + (k : Int) * (len : Int) ≤ E →
      chainFromB s (generate_intervals_go s len k ++
        [(s + (k : Int) * (len : Int), E)]) = true := by
  intro k
  induction k with
  | zero =>
    intro s E hE
    simp only [Nat.cast_zero, zero_mul, add_zero] at hE ⊢
    simp only [generate_intervals_go, List.nil_append, chainFromB,
      Bool.and_eq_true, beq_iff_eq, decide_eq_true_eq]
    refine ⟨⟨?_, ?_⟩, ?_⟩
    · trivial
    · exact hE
    · trivial
  | succ k ih =>
    intro s E hE
    have ecast : ((k + 1 : Nat) : Int) * (len : Int) =
        (k : Int) * (len : Int) + (len : Int) := by
      push_cast
      ring
    rw [ecast] at hE
    simp only [generate_intervals_go, List.cons_append]
    simp only [chainFromB, Bool.and_eq_true, beq_iff_eq, decide_eq_true_eq]
    refine ⟨⟨?_, ?_⟩, ?_⟩
    · trivial
    · omega
    · have e1 : s + (len : Int) - 1 + 1 = s + (len : Int) := by ring
      have e2 : s + ((k + 1 : Nat) : Int) * (len : Int) =
          (s + (len : Int)) + (k : Int) * (len : Int) := by
        rw [ecast]
        ring
      rw [e1, e2]
      exact ih (s + (len : Int)) E (by omega)

/-- Every range the loop emits spans exactly the interval length. -/
theorem generate_intervals_go_span (len : Nat) :
    ∀ (k : Nat) (s : Int), (generate_intervals_go s len k).all
      (fun p => p.2 - p.1 + 1 == (len : Int)) = true := by
  intro k
  induction k with
  | zero => intro s; rfl
  | succ k ih =>
    intro s
    simp only [generate_intervals_go, List.all_cons, Bool.and_eq_true,
      beq_iff_eq]
    exact ⟨by ring, ih (s + (len : Int))⟩

/-- Claim C3 (amended): for every date range of D days and every interval
count n with 1 ≤ n ≤ 86400 and (n - 1) * ceil(D / n) < D, the subdivision
emits n contiguous non-overlapping sub-ranges that cover exactly the
original span with no gaps, the first n - 1 spanning exactly
ceil(D / n) days and the final one absorbing the remainder, hence
spanning at most that many days (shorter but never longer). -/
theorem C3_subdivision (s : Int) (D n : Nat) (h1 : 1 ≤ n) (h2 : n ≤ 86400)
    (h3 : (n - 1) * ((D + n - 1) / n) < D) :
    claimedSubdivisionB s (s + (D : Int) - 1) n = true := by
  have hD1 : 1 ≤ D := by
    rcases Nat.eq_zero_or_pos D with h | h
    · rw [h] at h3
      exact absurd h3 (Nat.not_lt_zero _)
    · exact h
  set len := (D + n - 1) / n with hlen
  have hlen1 : 1 ≤ len := by
    rw [hlen]
    exact Nat.div_pos (by omega) (by omega)
  have hDle : D ≤ n * len := by
    have h4 := Nat.div_add_mod (D + n - 1) n
    have h5 : (D + n - 1) % n < n := Nat.mod_lt _ (by omega)
    rw [hlen]
    omega
  have htot : ((s + (D : Int) - 1) - s + 1).toNat = D := by omega
  have hcast : ((n - 1 : Nat) : Int) = (n : Int) - 1 := by
    push_cast [Nat.cast_sub h1]
    ring
  simp only [claimedSubdivisionB, generate_intervals, htot,
    intervalLen_eq_ceil D n h1 h2, ← hlen]
  simp only [Bool.and_eq_true]
  refine ⟨⟨⟨⟨?_, ?_⟩, ?_⟩, ?_⟩, ?_⟩
  · simp only [List.length_append, generate_intervals_go_length,
      List.length_cons, List.length_nil, beq_iff_eq]
    omega
  · refine chainFromB_go_concat len hlen1 (n - 1) s (s + (D : Int) - 1) ?_
    have h6 : ((n - 1) * len : Nat) < D := h3
    have h7 : (((n - 1) * len : Nat) : Int) = ((n - 1 : Nat) : Int) * (len : Int) := by
      push_cast
      ring
    have h8 : ((n - 1 : Nat) : Int) * (len : Int) ≤ (D : Int) - 1 := by
      rw [← h7]
      exact_mod_cast by omega
    omega
  · rw [List.getLast?_concat]
    simp
  · have htake := List.take_left (generate_intervals_go s len (n - 1))
      [(s + ((n - 1 : Nat) : Int) * (len : Int), s + (D : Int) - 1)]
    rw [generate_intervals_go_length] at htake
    rw [htake]
    exact generate_intervals_go_span len (n - 1) s
  · rw [List.getLast?_concat]
    simp only [decide_eq_true_eq]
    rw [hcast]
    have e7 : ((n : Int) - 1) * (len : Int) = (n : Int) * (len : Int) - (len : Int) := by
      ring
    rw [e7]
    have h9 : (D : Int) ≤ (n : Int) * (len : Int) := by
      exact_mod_cast hDle
    omega

/-- Counterexample to claim C3 as stated: subdividing the 4-day range
2022-01-01..2022-01-04 into 3 intervals emits a third pair whose start
ordinal (2022-01-05) exceeds its end ordinal (2022-01-04): the emitted
pairs are not three sub-ranges covering the span, and the first two
already exhaust it. -/
theorem C3_counterexample :
    generate_intervals ((Date.toOrdinal ⟨2022, 1, 1⟩ : Int))
        ((Date.toOrdinal ⟨2022, 1, 1⟩ : Int) + 3) 3 =
      [((Date.toOrdinal ⟨2022, 1, 1⟩ : Int), (Date.toOrdinal ⟨2022, 1, 1⟩ : Int) + 1),
       ((Date.toOrdinal ⟨2022, 1, 1⟩ : Int) + 2, (Date.toOrdinal ⟨2022, 1, 1⟩ : Int) + 3),
       ((Date.toOrdinal ⟨2022, 1, 1⟩ : Int) + 4, (Date.toOrdinal ⟨2022, 1, 1⟩ : Int) + 3)] ∧
    claimedSubdivisionB ((Date.toOrdinal ⟨2022, 1, 1⟩ : Int))
        ((Date.toOrdinal ⟨2022, 1, 1⟩ : Int) + 3) 3 = false :=
  ⟨by decide, by decide⟩

/-- Witness for claim C3 at the documented scenario: a 92-day range split
into 4 intervals. -/
theorem C3_subdivision_witness :
    claimedSubdivisionB ((Date.toOrdinal ⟨2022, 1, 1⟩ : Int))
      ((Date.toOrdinal ⟨2022, 1, 1⟩ : Int) + ((92 : Nat) : Int) - 1) 4 = true :=
  C3_subdivision _ 92 4 (by decide) (by decide) (by decide)

/-! ## Dictionary merge lookups -/

/-- Lookup over a concatenation prefers the left dictionary. -/
theorem lookupKey_append (k : String) (d1 d2 : List (String × JVal)) :
    lookupKey k (d1 ++ d2) =
      match lookupKey k d1 with
      | some v => some v
      | none => lookupKey k d2 := by
  induction d1 with
  | nil => simp [lookupKey]
  | cons kv rest ih =>
    obtain ⟨k2, v⟩ := kv
    by_cases h : k2 = k <;> simp [lookupKey, h, ih]

/-- Lookup over the override pass of a merge. -/
theorem lookupKey_mapOverride (k : String) (d1 d2 : List (String × JVal)) :
    lookupKey k (d1.map (fun kv =>
        match lookupKey kv.1 d2 with
        | some v => (kv.1, v)
        | none => kv)) =
      match lookupKey k d1 with
      | some v => some ((lookupKey k d2).getD v)
      | none => none := by
  induction d1 with
  | nil => simp [lookupKey]
  | cons kv rest ih =>
    obtain ⟨k2, v⟩ := kv
    by_cases h : k2 = k
    · subst h
      cases hlk : lookupKey k2 d2 <;> simp [lookupKey, hlk]
    · cases hlk : lookupKey k2 d2 <;> simp [lookupKey, h, hlk, ih]

/-- Lookup over the addition pass of a merge. -/
theorem lookupKey_filterNone (k : String) (d1 d2 : List (String × JVal)) :
    lookupKey k (d2.filter (fun kv => (lookupKey kv.1 d1).isNone)) =
      if (lookupKey k d1).isNone then lookupKey k d2 else none := by
  induction d2 with
  | nil => simp [lookupKey]
  | cons kv rest ih =>
    obtain ⟨k2, v⟩ := kv
    by_cases h : k2 = k
    · subst h
      cases hn : (lookupKey k2 d1).isNone <;>
        simp [List.filter_cons, hn, lookupKey, ih]
    · cases hn : (lookupKey k2 d1).isNone <;>
        simp [List.filter_cons, hn, lookupKey, h, ih]

/-- Lookup over a Python dictionary merge: the right side wins where both
carry the key, otherwise whichever side carries it. -/
theorem lookupKey_mergeDict (k : String) (d1 d2 : List (String × JVal)) :
    lookupKey k (mergeDict d1 d2) =
      match lookupKey k d1 with
      | some v => some ((lookupKey k d2).getD v)
      | none => lookupKey k d2 := by
  rw [mergeDict, lookupKey_append, lookupKey_mapOverride, lookupKey_filterNone]
  cases hlk : lookupKey k d1 <;> simp [hlk]

/-! ## Batch serialization (claim C4) -/

/-- Claim C4 (code evaluation at the failing input): with the maximum
batch size rebound to 1, the two requests sharing exampleKey serialize to
two separate one-element reportRequests batches, never one two-element
batch, and with the default size 5 they share one batch; but every emitted
element is a bare reportRequests object: to_request carries no key tag, so
the (key, serialized_wire_request) pairs the claim and the repository test
suite describe are absent. -/
theorem C4_batch_chunking_untagged :
    exampleBatch.MAXSIZE = 1 ∧
    exampleBatch.to_request =
      [JVal.obj [("reportRequests", JVal.arr [JVal.obj exampleRequest1.to_request])],
       JVal.obj [("reportRequests", JVal.arr [JVal.obj exampleRequest2.to_request])]] ∧
    chunk [exampleRequest1, exampleRequest2] 1 = [[exampleRequest1], [exampleRequest2]] ∧
    (UARequestBatch.mk 5 [(exampleKey, [exampleRequest1, exampleRequest2])]).to_request =
      [JVal.obj [("reportRequests",
        JVal.arr [JVal.obj exampleRequest1.to_request,
          JVal.obj exampleRequest2.to_request])]] :=
  ⟨rfl, rfl, rfl, rfl⟩

/-! ## Filter expression errors (claim C5) -/

/-- Claim C5 (amended): a well-formed comparison whose operator token
carries no FilterOperator alias (such as sessions < 100: the grammar
accepts <, <=, = and <>, but the enumeration declares only ==, !=, IN, >
and >=) fails with the unknown-operator error; an expression with no
parseable leading term fails with a parse error carrying the offending
fragment; but because parse_string is called without parse_all, an
expression that parses only as a bare column reference fails with an
IndexError when the operator position is indexed, and text after a
complete comparison is silently ignored. -/
theorem C5_filter_error_taxonomy :
    Filter.from_doc "metrics" "sessions < 100" = .error (.unknownOperator "<") ∧
    (∀ (ftype expr : String) (lhs rhs : PTerm) (col tok : String),
       Expression.parse_string expr = .ok (.binary lhs tok rhs) →
       columnOfOperand lhs = .ok col →
       FilterOperator.getExpr tok = none →
       Filter.from_doc ftype expr = .error (.unknownOperator tok)) ∧
    (∀ (ftype expr frag : String),
       Expression.parse_string expr = .error frag →
       Filter.from_doc ftype expr = .error (.parseError frag)) ∧
    Filter.from_doc "metrics" "== 100" = .error (.parseError "== 100") ∧
    Filter.from_doc "metrics" "sessions >=" = .error .indexError ∧
    Filter.from_doc "metrics" "sessions >= 100 x" =
      .ok ⟨.METRIC, .GTE, "sessions", .int 100⟩ := by
  refine ⟨rfl, ?_, ?_, rfl, rfl, rfl⟩
  · intro ftype expr lhs rhs col tok hparse hcol hget
    simp [Filter.from_doc, hparse, ParsedExpr.columnItem,
      ParsedExpr.operatorItem, hcol, hget]
  · intro ftype expr frag hparse
    simp [Filter.from_doc, hparse]

/-- Counterexample to claim C5 as stated: pyparsing is called without
parse_all, so the malformed expression sessions >= parses as the bare
column sessions and from_doc fails with an IndexError at parsed[1], not
with a parse error; and the malformed expression sessions >= 100 x does
not fail at all, its trailing text silently ignored. -/
theorem C5_counterexample :
    Filter.from_doc "metrics" "sessions >=" = .error .indexError ∧
    Filter.from_doc "metrics" "sessions >= 100 x" =
      .ok ⟨.METRIC, .GTE, "sessions", .int 100⟩ :=
  ⟨rfl, rfl⟩

/-- Witness for claim C5 at a token the grammar accepts but the
enumeration does not declare, and at an input with no parseable leading
term. -/
theorem C5_filter_error_witness :
    Expression.parse_string "uniqueEvents <= 5" =
      .ok (.binary (.column "uniqueEvents") "<=" (.intLit 5)) ∧
    FilterOperator.getExpr "<=" = none ∧
    Filter.from_doc "metrics" "uniqueEvents <= 5" =
      .error (.unknownOperator "<=") ∧
    Expression.parse_string "?? what" = .error "?? what" ∧
    Filter.from_doc "dimensions" "?? what" = .error (.parseError "?? what") :=
  ⟨rfl, rfl,
   C5_filter_error_taxonomy.2.1 "metrics" "uniqueEvents <= 5"
     (.column "uniqueEvents") (.intLit 5) "uniqueEvents" "<=" rfl rfl rfl,
   rfl,
   C5_filter_error_taxonomy.2.2.1 "dimensions" "?? what" "?? what" rfl⟩

/-! ## GTE wire serialization (claim C6) -/

/-- Claim C6: parsing sessions >= 100 as a metric filter yields operator
GTE, whose wire alias is LESS_THAN with negated true, and its
serialization is exactly the metricName, not, operator, comparisonValue
object with the value stringified and the operator rendered as a negated
LESS_THAN. -/
theorem C6_gte_negated_less_than :
    Filter.from_doc "metrics" "sessions >= 100" =
      .ok ⟨.METRIC, .GTE, "sessions", .int 100⟩ ∧
    FilterOperator.GTE.value.ua = ⟨"LESS_THAN", true⟩ ∧
    (Filter.mk .METRIC .GTE "sessions" (.int 100)).to_request =
      .obj [("metricName", .s "ga:sessions"), ("not", .b true),
            ("operator", .s "LESS_THAN"), ("comparisonValue", .s "100")] :=
  ⟨rfl, rfl, rfl⟩

/-! ## Query options serialization (claim C7) -/

/-- Claim C7: for every UAQueryOptions the wire object binds hideTotals to
the logical negation of include_totals and hideValueRanges to the logical
negation of include_value_ranges, carries the pageToken key exactly when
page_token is set, and never emits includeTotals or includeValueRanges
keys. -/
theorem C7_query_options_inversion :
    ∀ q : UAQueryOptions,
      lookupKey "hideTotals" q.to_request = some (.b (!q.include_totals)) ∧
      lookupKey "hideValueRanges" q.to_request =
        some (.b (!q.include_value_ranges)) ∧
      lookupKey "pageToken" q.to_request = Option.map JVal.s q.page_token ∧
      lookupKey "includeTotals" q.to_request = none ∧
      lookupKey "includeValueRanges" q.to_request = none := by
  intro q
  cases hpt : q.page_token <;>
    simp [UAQueryOptions.to_request, mergeDict, lookupKey, hpt]

/-! ## Sampling level order and alias (claim C8) -/

/-- Claim C8: the sampling levels are ordered SMALL below DEFAULT (the
member MEDIUM aliases, sharing numeric value 2) below LARGE, and name
resolution on the shared value returns the first declared name: both
DEFAULT and MEDIUM resolve to the name DEFAULT, never MEDIUM. -/
theorem C8_sampling_level_order_and_alias :
    SamplingLevel.SMALL.value < SamplingLevel.DEFAULT.value ∧
    SamplingLevel.DEFAULT.value = SamplingLevel.MEDIUM.value ∧
    SamplingLevel.MEDIUM.value < SamplingLevel.LARGE.value ∧
    SamplingLevel.MEDIUM = SamplingLevel.DEFAULT ∧
    SamplingLevel.DEFAULT.name = "DEFAULT" ∧
    SamplingLevel.MEDIUM.name = "DEFAULT" ∧
    SamplingLevel.declarations.find? (fun p => p.2 == 2) =
      some ("DEFAULT", 2) := by
  refine ⟨by decide, by decide, by decide, by decide, by decide, by decide,
    by decide⟩

/-! ## Segment filters and the NotImplemented sentinel (claim C10) -/

/-- Claim C10: serializing a segment filter returns the NotImplemented
sentinel rather than raising or building a wire object, and because
UARequest.to_request builds clauses for all three filter kinds, a request
holding a segment filter embeds the sentinel inside its
segmentFilterClauses value. -/
theorem C10_segment_filters_not_implemented :
    (∀ f : Filter, f.ftype = .SEGMENT → f.to_request = .notImplemented) ∧
    (∀ (r : UARequest) (fs : List Filter), r.filters = some fs →
       ∀ f ∈ fs, f.ftype = .SEGMENT →
         lookupKey "segmentFilterClauses" r.to_request =
           some (.arr [.obj [("operator", .s "AND"),
             ("filters", .arr ((fs.filter (fun g => g.ftype == .SEGMENT)).map
               Filter.to_request))]]) ∧
         JVal.notImplemented ∈
           (fs.filter (fun g => g.ftype == .SEGMENT)).map Filter.to_request) := by
  have hpart1 : ∀ f : Filter, f.ftype = .SEGMENT → f.to_request = .notImplemented := by
    intro f h
    simp [Filter.to_request, h]
  refine ⟨hpart1, ?_⟩
  intro r fs hfs f hf hseg
  have hmem : f ∈ fs.filter (fun g => g.ftype == .SEGMENT) :=
    List.mem_filter.mpr ⟨hf, by simp [hseg]⟩
  have hne : 0 < (fs.filter (fun g => g.ftype == .SEGMENT)).length :=
    List.length_pos.mpr (List.ne_nil_of_mem hmem)
  have hkeynone : lookupKey "segmentFilterClauses" r.key.to_request = none := rfl
  have hoptsnone :
      lookupKey "segmentFilterClauses" r.query_options.to_request = none := by
    cases hpt : r.query_options.page_token <;>
      simp [UAQueryOptions.to_request, mergeDict, lookupKey, hpt]
  have hclauses : lookupKey "segmentFilterClauses" r.filterClauses =
      some (.arr [.obj [("operator", .s "AND"),
        ("filters", .arr ((fs.filter (fun g => g.ftype == .SEGMENT)).map
          Filter.to_request))]]) := by
    simp only [UARequest.filterClauses, FilterType.members, hfs,
      Option.getD_some, List.filterMap_cons, List.filterMap_nil]
    split_ifs
    all_goals try (exfalso; simp only [List.length_map] at *; omega)
    all_goals simp [lookupKey, FilterType.clauseKey]
  refine ⟨?_, List.mem_map.mpr ⟨f, hmem, hpart1 f hseg⟩⟩
  simp only [UARequest.to_request, lookupKey_mergeDict, lookupKey_append,
    hkeynone, hoptsnone, hclauses]
  simp [lookupKey]

/-- Witness for claim C10 at a concrete request holding one segment
filter. -/
theorem C10_segment_witness :
    lookupKey "segmentFilterClauses" exampleSegmentRequest.to_request =
      some (.arr [.obj [("operator", .s "AND"),
        ("filters", .arr [.notImplemented])]]) ∧
    JVal.notImplemented ∈ [JVal.notImplemented] := by
  have h := C10_segment_filters_not_implemented.2 exampleSegmentRequest
    [exampleSegmentFilter] rfl exampleSegmentFilter (List.mem_singleton_self _) rfl
  exact ⟨h.1, List.mem_singleton_self _⟩

end UAR
